import Mathlib

/-!
# Verification of the email-automation core

Shallow embedding of the two pipelines of the repository
(`modules/email_scraper.py`, `modules/email_sender.py`) and proofs of the
spec's claims about them.

External collaborators (the IMAP client, the SMTP client, the `email`
library's header/charset decoders, the filesystem, the clock) are modelled
as explicit oracle parameters: each fallible black-box call is an
`Except String _` value supplied from outside, mirroring the fact that the
Python code treats them as opaque operations that either return a value or
raise.  Python exception flow is embedded with `Except String`:
a `try:` body becomes a `_body` definition with codomain
`Except String _`, and the surrounding `except:` handler becomes a `match`
on that body's outcome.  Python strings are Lean `String`s (one `Char` per
Python character, so `len`, slicing and `str.replace` translate to
character-level operations).
-/

namespace EmailAuto

/-- Fueled left-to-right scan underlying `str.replace`: each step either
consumes one character or a whole pattern occurrence, so `s.length` fuel
always suffices (the fuel-zero branch is unreachable from
`replaceChars`). -/
def replaceCharsFuel (pat rep : List Char) : Nat → List Char → List Char
  | 0, s => s
  | fuel + 1, s =>
    match s with
    | [] => []
    | c :: cs =>
      if pat ≠ [] ∧ pat.isPrefixOf (c :: cs) then
        rep ++ replaceCharsFuel pat rep fuel ((c :: cs).drop pat.length)
      else
        c :: replaceCharsFuel pat rep fuel cs

/-- Python's `str.replace(old, new)` on character lists, for a non-empty
pattern: scan left to right, replacing non-overlapping occurrences.
(The source only ever replaces patterns of the form "{col}", never empty.) -/
def replaceChars (s pat rep : List Char) : List Char :=
  replaceCharsFuel pat rep s.length s

theorem replaceCharsFuel_irrel (pat rep : List Char) :
    ∀ (fuel₁ fuel₂ : Nat) (s : List Char), s.length ≤ fuel₁ → s.length ≤ fuel₂ →
      replaceCharsFuel pat rep fuel₁ s = replaceCharsFuel pat rep fuel₂ s := by
  intro fuel₁
  induction fuel₁ with
  | zero =>
    intro fuel₂ s h1 _
    have : s = [] := List.length_eq_zero.mp (Nat.le_zero.mp h1)
    subst this
    cases fuel₂ <;> rfl
  | succ f ih =>
    intro fuel₂ s h1 h2
    cases s with
    | nil => cases fuel₂ <;> rfl
    | cons c cs =>
      cases fuel₂ with
      | zero => simp at h2
      | succ f₂ =>
        simp only [replaceCharsFuel]
        by_cases hif : pat ≠ [] ∧ pat.isPrefixOf (c :: cs)
        · rw [if_pos hif, if_pos hif]
          have hpat : 1 ≤ pat.length := by
            rcases pat with _ | ⟨p, ps⟩
            · exact absurd rfl hif.1
            · simp
          have hd : ((c :: cs).drop pat.length).length ≤ f ∧
              ((c :: cs).drop pat.length).length ≤ f₂ := by
            simp only [List.length_drop, List.length_cons]
            simp only [List.length_cons] at h1 h2
            omega
          rw [ih _ _ hd.1 hd.2]
        · rw [if_neg hif, if_neg hif]
          have hc : cs.length ≤ f ∧ cs.length ≤ f₂ := by
            simp only [List.length_cons] at h1 h2
            omega
          rw [ih _ _ hc.1 hc.2]

/-- One-step unfolding of `replaceChars` on a cons cell. -/
theorem replaceChars_cons (c : Char) (cs pat rep : List Char) :
    replaceChars (c :: cs) pat rep =
      if pat ≠ [] ∧ pat.isPrefixOf (c :: cs) then
        rep ++ replaceChars ((c :: cs).drop pat.length) pat rep
      else
        c :: replaceChars cs pat rep := by
  show replaceCharsFuel pat rep (cs.length + 1) (c :: cs) = _
  simp only [replaceCharsFuel]
  by_cases hif : pat ≠ [] ∧ pat.isPrefixOf (c :: cs)
  · rw [if_pos hif, if_pos hif]
    have hpat : 1 ≤ pat.length := by
      rcases pat with _ | ⟨p, ps⟩
      · exact absurd rfl hif.1
      · simp
    have : replaceCharsFuel pat rep cs.length ((c :: cs).drop pat.length)
        = replaceCharsFuel pat rep ((c :: cs).drop pat.length).length
            ((c :: cs).drop pat.length) :=
      replaceCharsFuel_irrel pat rep cs.length _ _
        (by simp only [List.length_drop, List.length_cons]; omega) (le_refl _)
    rw [this]
    rfl
  · rw [if_neg hif, if_neg hif]
    rfl

theorem replaceChars_nil (pat rep : List Char) : replaceChars [] pat rep = [] := rfl

/-- Python's `s.replace(old, new)` lifted to `String`. -/
def pyReplace (s pat rep : String) : String :=
  String.mk (replaceChars s.data pat.data rep.data)

/-- Python's `l[-n:]` slice for a non-negative `n`: `l[-0:]` is the whole
list, and for `n > 0` it is the last `min n (length l)` elements. -/
def pySliceLast (n : Nat) (l : List α) : List α :=
  if n = 0 then l else l.drop (l.length - n)

/-- Python's `os.path.basename` on POSIX paths: the suffix of the path
after the last `/`. -/
def basename (p : String) : String :=
  String.mk ((p.data.reverse.takeWhile (fun c => c ≠ '/')).reverse)

/-- The character class of Python's `\s` regex over ASCII text (space,
tab, newline, carriage return, vertical tab, form feed). -/
def pyIsSpace (c : Char) : Bool :=
  c = ' ' || c = '\t' || c = '\n' || c = '\r' || c = '\x0b' || c = '\x0c'

/-- Fueled scan underlying the whitespace collapse: each step consumes at
least one character, so `l.length` fuel always suffices. -/
def collapseWsFuel : Nat → List Char → List Char
  | 0, l => l
  | fuel + 1, l =>
    match l with
    | [] => []
    | c :: cs =>
      if pyIsSpace c then ' ' :: collapseWsFuel fuel (cs.dropWhile pyIsSpace)
      else c :: collapseWsFuel fuel cs

/-- `re.sub(r'\s+', ' ', s)` on character lists: every maximal run of
whitespace becomes a single space. -/
def collapseWs (l : List Char) : List Char :=
  collapseWsFuel l.length l

/-- Python's `str.strip()` (no argument): drop leading and trailing
whitespace. -/
def pyStrip (l : List Char) : List Char :=
  ((l.dropWhile pyIsSpace).reverse.dropWhile pyIsSpace).reverse

/-- `re.sub(r'\s+', ' ', body).strip()` — the body cleanup at the end of
`get_email_body`. -/
def normalizeWs (s : String) : String :=
  String.mk (pyStrip (collapseWs s.data))

/-- Python's `str(KeyError(c))`: the missing key wrapped in single quotes. -/
def pyKeyError (c : String) : String :=
  String.mk ('\x27' :: (c.data ++ ['\x27']))

/-! ## Data model of `modules/email_sender.py` -/

/-- One MIME part of an outgoing message: the text part built by
`MIMEText(body, subtype)` or an attachment part built from
`MIMEBase("application", "octet-stream")`, `encoders.encode_base64` and
`add_header("Content-Disposition", ...)`. -/
structure MIMEPart where
  mainType : String
  subType : String
  payload : String
  base64Encoded : Bool
  headers : List (String × String)
deriving DecidableEq, Repr

/-- The `MIMEMultipart()` container built in `send_email`, with its
`From`/`To`/`Subject` headers and attached parts in attachment order. -/
structure MIMEMessage where
  fromAddr : String
  toAddr : String
  subjectHdr : String
  parts : List MIMEPart
deriving DecidableEq, Repr

/-- The filesystem seen by `send_email`, as a path → contents table:
`os.path.exists` is membership, `open(...).read()` is lookup. -/
structure FileSystem where
  files : List (String × String)

/-- `os.path.exists` over the modelled filesystem. -/
def FileSystem.pathExists (fs : FileSystem) (p : String) : Bool :=
  (fs.files.map Prod.fst).contains p

/-- `open(p, "rb").read()` over the modelled filesystem. -/
def FileSystem.readFile (fs : FileSystem) (p : String) : String :=
  (fs.files.lookup p).getD ""

namespace EmailSender

/-- `MIMEText(body, subtype)` — the body part of the outgoing message. -/
def mimeText (body sub : String) : MIMEPart :=
  { mainType := "text", subType := sub, payload := body,
    base64Encoded := false, headers := [] }

/-- One iteration of the attachment loop in `send_email`: when the path
exists the file is read, base64-encoded into an
`application/octet-stream` part carrying the
`Content-Disposition: attachment; filename= <basename>` header; when the
path does not exist the `if os.path.exists` guard skips it and no part is
produced. -/
def attachmentPart (fs : FileSystem) (file_path : String) : Option MIMEPart :=
  if fs.pathExists file_path then
    some { mainType := "application", subType := "octet-stream",
           payload := fs.readFile file_path, base64Encoded := true,
           headers := [("Content-Disposition",
                        "attachment; filename= " ++ basename file_path)] }
  else none

/-- The message-construction half of `send_email`: `MIMEMultipart()` with
`From`/`To`/`Subject` headers, the text part (`html` or `plain` per
`is_html`), then the attachment loop over `attachments` (a `None`
argument behaves as the empty list, matching `if attachments:`). -/
def buildMessage (fs : FileSystem) (selfEmail to_email subject body : String)
    (attachments : Option (List String)) (is_html : Bool) : MIMEMessage :=
  { fromAddr := selfEmail, toAddr := to_email, subjectHdr := subject,
    parts := mimeText body (if is_html then "html" else "plain") ::
      (attachments.getD []).filterMap (attachmentPart fs) }

/-- The `try:` body of `send_email`: build the message and transmit it via
the open session (`smtpSend` models `self.smtp.send_message`; a raise from
it propagates as `.error`). -/
def send_email_body (fs : FileSystem) (smtpSend : MIMEMessage → Except String Unit)
    (selfEmail to_email subject body : String) (attachments : Option (List String))
    (is_html : Bool) : Except String (Bool × String) :=
  match smtpSend (buildMessage fs selfEmail to_email subject body attachments is_html) with
  | .ok _ => .ok (true, "Email sent successfully!")
  | .error e => .error e

/-- `send_email`: the `try:` body with its `except Exception` handler,
which converts any raise into `(False, "Failed to send: " + str(e))`. -/
def send_email (fs : FileSystem) (smtpSend : MIMEMessage → Except String Unit)
    (selfEmail to_email subject body : String) (attachments : Option (List String))
    (is_html : Bool) : Except String (Bool × String) :=
  match send_email_body fs smtpSend selfEmail to_email subject body attachments is_html with
  | .ok r => .ok r
  | .error e => .ok (false, "Failed to send: " ++ e)

/-! ### Bulk send

A recipient DataFrame is modelled as its ordered column list and one
value list per row (pandas guarantees the row values align with the
columns).  `row[c]` raises `KeyError(c)` when `c` is not a column;
`row.get(c, d)` returns `d` instead. -/

/-- pandas `row[c]`: value of the first column named `c`, or a raised
`KeyError` when there is none. -/
def lookupVal (cols vals : List String) (c : String) : Except String String :=
  match (cols.zip vals).lookup c with
  | some v => .ok v
  | none => .error (pyKeyError c)

/-- pandas `row.get(c, dflt)`. -/
def rowGet (cols vals : List String) (c dflt : String) : String :=
  ((cols.zip vals).lookup c).getD dflt

/-- The placeholder token `"{" + col + "}"` built in the substitution
loop of `send_bulk_emails`. -/
def placeholder (c : String) : String :=
  "\x7b" ++ c ++ "\x7d"

/-- The recursion underlying the placeholder-substitution loop: process
the pending column names left to right, replacing every occurrence of the
placeholder of each with `str(row[col])`; a raised `KeyError` propagates. -/
def renderListE (cols vals pending : List String) (acc : String) :
    Except String String :=
  match pending with
  | [] => .ok acc
  | c :: rest =>
    match lookupVal cols vals c with
    | .error e => .error e
    | .ok v => renderListE cols vals rest (pyReplace acc (placeholder c) v)

/-- The placeholder-substitution loop of `send_bulk_emails` applied to one
template: for each column of the recipient table, replace every
occurrence of `{col}` with `str(row[col])` (row values are modelled by
their string form). -/
def renderTemplateE (cols vals : List String) (t : String) : Except String String :=
  renderListE cols vals cols t

/-- One row of the bulk-send result table. -/
structure SendResult where
  Email : String
  Name : String
  Status : String
  Message : String
deriving DecidableEq, Repr

/-- The `try:` body of one iteration of the bulk loop: render both
templates, read `row["email"]`, send, and build the success/failure row.
`send` models `self.send_email(email, subject, body, attachments)`
with the session, filesystem and shared attachment list baked in; per
`send_email`, it returns rather than raises. -/
def processRowBody (send : String → String → String → Bool × String)
    (cols vals : List String) (subject_template body_template : String) :
    Except String SendResult :=
  match renderTemplateE cols vals subject_template with
  | .error e => .error e
  | .ok subject =>
    match renderTemplateE cols vals body_template with
    | .error e => .error e
    | .ok body =>
      match lookupVal cols vals "email" with
      | .error e => .error e
      | .ok em =>
        .ok { Email := em, Name := rowGet cols vals "name" "N/A",
              Status := if (send em subject body).1 then "Sent" else "Failed",
              Message := (send em subject body).2 }

/-- One iteration of the bulk loop: the `try:` body plus its
`except Exception` handler, which appends a `Failed` row built from
`row.get` fallbacks and `str(e)`. -/
def processRow (send : String → String → String → Bool × String)
    (cols vals : List String) (subject_template body_template : String) : SendResult :=
  match processRowBody send cols vals subject_template body_template with
  | .ok r => r
  | .error e =>
    { Email := rowGet cols vals "email" "Unknown",
      Name := rowGet cols vals "name" "N/A",
      Status := "Failed", Message := e }

/-- `send_bulk_emails`: iterate the recipient rows in order, appending one
result row per recipient row. -/
def send_bulk_emails (send : String → String → String → Bool × String)
    (cols : List String) (rows : List (List String))
    (subject_template body_template : String) : List SendResult :=
  rows.map (fun vals => processRow send cols vals subject_template body_template)

/-- The `try:` body of the sender's `connect`: `smtplib.SMTP(...)`,
`starttls()`, `login(...)` in sequence, each a fallible transport call. -/
def connect_body (mkConn starttlsRes loginRes : Except String Unit) :
    Except String (Bool × String) :=
  match mkConn with
  | .error e => .error e
  | .ok _ =>
    match starttlsRes with
    | .error e => .error e
    | .ok _ =>
      match loginRes with
      | .error e => .error e
      | .ok _ => .ok (true, "Connected successfully!")

/-- The sender's `connect`: the body with its `except Exception` handler
returning `(False, "Connection failed: " + str(e))`. -/
def connect (mkConn starttlsRes loginRes : Except String Unit) :
    Except String (Bool × String) :=
  match connect_body mkConn starttlsRes loginRes with
  | .ok r => .ok r
  | .error e => .ok (false, "Connection failed: " ++ e)

/-- The sender's `disconnect`: `if self.smtp: try: quit() except: pass` —
`smtp` is `none` when `connect` was never called. -/
def disconnect (smtp : Option Unit) (quitRes : Except String Unit) :
    Except String Unit :=
  match smtp with
  | none => .ok ()
  | some _ =>
    match quitRes with
    | .ok _ => .ok ()
    | .error _ => .ok ()

end EmailSender

/-! ## Data model of `modules/email_scraper.py` -/

namespace EmailScraper

/-- One element of the list returned by `email.header.decode_header` on a
Subject header: either a bytes chunk — with the result of
`part.decode(encoding or "utf-8")` when that succeeds (`decoded`), and the
result of `part.decode("utf-8", errors="ignore")` otherwise (`fallback`) —
or an already-decoded `str` chunk. -/
inductive HeaderPart where
  | bytesPart (decoded : Option String) (fallback : String)
  | strPart (s : String)
deriving DecidableEq, Repr

/-- The MIME tree of a fetched message, through the `email.message`
surface the scraper uses.  For a non-multipart node, `decodedPayload` is
the result of `get_payload(decode=True).decode()` when that call chain
succeeds and `none` when it raises; `rawPayload` is `str(get_payload())`;
`filename` is `get_filename()`. -/
inductive MimeTree where
  | leaf (contentType : String) (dispositionHeader : Option String)
      (decodedPayload : Option String) (rawPayload : String)
      (filename : Option String)
  | multi (contentType : String) (dispositionHeader : Option String)
      (parts : List MimeTree)

/-- `Message.is_multipart()`. -/
def MimeTree.is_multipart : MimeTree → Bool
  | .leaf _ _ _ _ _ => false
  | .multi _ _ _ => true

/-- `Message.get_content_type()`. -/
def MimeTree.get_content_type : MimeTree → String
  | .leaf ct _ _ _ _ => ct
  | .multi ct _ _ => ct

/-- `Message.get("Content-Disposition")` — the raw header, `None` when
absent. -/
def MimeTree.dispositionOf : MimeTree → Option String
  | .leaf _ d _ _ _ => d
  | .multi _ d _ => d

/-- The attempt `get_payload(decode=True).decode()`: on a multipart node
`get_payload(decode=True)` is `None`, so the `.decode()` raises — hence
`none`; on a leaf it is the modelled decode outcome. -/
def MimeTree.decodedOf : MimeTree → Option String
  | .leaf _ _ d _ _ => d
  | .multi _ _ _ => none

/-- `str(get_payload())` on a non-multipart node. -/
def MimeTree.rawOf : MimeTree → String
  | .leaf _ _ _ r _ => r
  | .multi _ _ _ => ""

/-- `Message.get_filename()`; attachment filenames live on leaves. -/
def MimeTree.filenameOf : MimeTree → Option String
  | .leaf _ _ _ _ f => f
  | .multi _ _ _ => none

mutual

/-- `Message.walk()`: depth-first traversal, the node itself first, then
its subparts recursively. -/
def MimeTree.walk : MimeTree → List MimeTree
  | .leaf ct d dec raw f => [.leaf ct d dec raw f]
  | .multi ct d parts => .multi ct d parts :: MimeTree.walkList parts

/-- Depth-first traversal of a list of sibling parts, in order. -/
def MimeTree.walkList : List MimeTree → List MimeTree
  | [] => []
  | t :: ts => MimeTree.walk t ++ MimeTree.walkList ts

end

/-- `Message.get_content_disposition()`: the header value without its
parameters, lowercased (library behavior, modelled on the raw header). -/
def MimeTree.get_content_disposition (m : MimeTree) : Option String :=
  m.dispositionOf.map (fun s => (((s.splitOn ";").headD s).trim).toLower)

/-- Python's `str(x)` on an optional string — `None` prints as `"None"`
(the scraper applies this to the Content-Disposition header). -/
def strOfOpt : Option String → String
  | none => "None"
  | some s => s

/-- Contiguous-occurrence scan on character lists. -/
def containsSubChars (s sub : List Char) : Bool :=
  match s with
  | [] => sub.isEmpty
  | _ :: tail => sub.isPrefixOf s || containsSubChars tail sub

/-- Python's `sub in s` substring test. -/
def containsSub (s sub : String) : Bool :=
  containsSubChars s.data sub.data

/-- The part filter in `get_email_body`'s multipart loop:
`content_type == "text/plain" and "attachment" not in content_disposition`. -/
def isPlainCandidate (p : MimeTree) : Bool :=
  p.get_content_type = "text/plain" &&
    !(containsSub (strOfOpt p.dispositionOf) "attachment")

/-- The multipart loop of `get_email_body`: starting from `body = ""`,
visit the walk order; at each `text/plain` non-attachment part try to
decode — success assigns `body` and breaks, a raise is swallowed by the
inner `except: pass` and the loop continues. -/
def firstPlainDecoded : List MimeTree → String
  | [] => ""
  | p :: ps =>
    if isPlainCandidate p then
      match p.decodedOf with
      | some s => s
      | none => firstPlainDecoded ps
    else firstPlainDecoded ps

/-- `get_email_body`: multipart messages use the loop over `walk()`;
non-multipart messages try `get_payload(decode=True).decode()` and fall
back to `str(get_payload())` on a raise; the result is whitespace
normalized by `re.sub(r"\s+", " ", body).strip()`. -/
def get_email_body (msg : MimeTree) : String :=
  let body :=
    if msg.is_multipart then firstPlainDecoded msg.walk
    else
      match msg.decodedOf with
      | some s => s
      | none => msg.rawOf
  normalizeWs body

/-- `decode_subject`: `None` becomes `"No Subject"`; otherwise the
`decode_header` parts are decoded (bytes via the charset, falling back to
`utf-8` with `errors="ignore"`) and concatenated. -/
def decode_subject (subject : Option (List HeaderPart)) : String :=
  match subject with
  | none => "No Subject"
  | some parts =>
    String.join (parts.map (fun p =>
      match p with
      | .bytesPart (some s) _ => s
      | .bytesPart none fb => fb
      | .strPart s => s))

/-- `get_attachments`: walk the tree, keep parts whose content disposition
is `attachment` and whose filename is present and non-empty
(`if filename:`). -/
def get_attachments (msg : MimeTree) : List String :=
  msg.walk.filterMap (fun p =>
    if p.get_content_disposition = some "attachment" then
      match p.filenameOf with
      | some f => if f = "" then none else some f
      | none => none
    else none)

/-- A fetched message as the scraper reads it: the Subject header fed
through `decode_header` (`none` when the header is absent), the raw
`From`/`Date` headers, and the MIME content tree. -/
structure EmailMsg where
  subject : Option (List HeaderPart)
  fromHdr : Option String
  dateHdr : Option String
  content : MimeTree

/-- One row of the scrape result table. -/
structure ScrapedRow where
  ID : String
  From : Option String
  Subject : String
  Date : Option String
  Body : String
  Attachments : String
deriving DecidableEq, Repr

/-- The `Body` field expression of `scrape_emails`:
`body[:200] + "..." if len(body) > 200 else body`. -/
def truncateBody (body : String) : String :=
  if body.length > 200 then body.take 200 ++ "..." else body

/-- The dict appended to `emails_data` for one fetched message. -/
def buildRow (email_id : String) (msg : EmailMsg) : ScrapedRow :=
  let body := get_email_body msg.content
  let atts := get_attachments msg.content
  { ID := email_id, From := msg.fromHdr,
    Subject := decode_subject msg.subject,
    Date := msg.dateHdr,
    Body := truncateBody body,
    Attachments := if atts ≠ [] then String.intercalate ", " atts else "None" }

/-- The IMAP session as the oracle of fallible black-box calls
`scrape_emails` makes: folder selection, search (already split into the
identifier list `messages[0].split()`), and fetch-plus-parse of one
identifier (`fetch` + `email.message_from_bytes` + header reads; a raise
anywhere in the per-message block is an `.error`). -/
structure ImapOracle where
  selectRes : String → Except String Unit
  searchRes : String → Except String (List String)
  fetchRes : String → Except String EmailMsg

/-- Truthiness of an optional string parameter (`if keyword:`):
`None` and `""` are falsy. -/
def optTruthy : Option String → Bool
  | none => false
  | some s => s ≠ ""

/-- The search-criteria list of `scrape_emails`: a `SINCE` clause when
`days` is truthy (`dateStr` models the formatted
`datetime.now() - timedelta(days=days)`), a quoted `SUBJECT` clause when
`keyword` is truthy, a quoted `FROM` clause when `sender` is truthy. -/
def buildSearchCriteria (dateStr : String) (days : Nat)
    (keyword sender : Option String) : List String :=
  (if days ≠ 0 then ["SINCE " ++ dateStr] else []) ++
  (if optTruthy keyword then ["SUBJECT \"" ++ keyword.getD "" ++ "\""] else []) ++
  (if optTruthy sender then ["FROM \"" ++ sender.getD "" ++ "\""] else [])

/-- `' '.join(search_criteria) if search_criteria else 'ALL'`. -/
def searchString (criteria : List String) : String :=
  if criteria ≠ [] then String.intercalate " " criteria else "ALL"

/-- The `try:` body of `scrape_emails`: select the folder, run the search,
keep the last `max_emails` identifiers (`email_ids[-max_emails:]`), then
fetch and decode each retained identifier — a raise inside the per-message
block is caught by the inner `except ... continue`, skipping that message
only. -/
def scrape_emails_body (o : ImapOracle) (dateStr folder : String) (days : Nat)
    (keyword sender : Option String) (max_emails : Nat) :
    Except String (List ScrapedRow) :=
  match o.selectRes folder with
  | .error e => .error e
  | .ok _ =>
    match o.searchRes (searchString (buildSearchCriteria dateStr days keyword sender)) with
    | .error e => .error e
    | .ok ids =>
      .ok ((pySliceLast max_emails ids).filterMap (fun i =>
        match o.fetchRes i with
        | .ok m => some (buildRow i m)
        | .error _ => none))

/-- `scrape_emails`: the body with its outer `except Exception` handler
returning an empty result table. -/
def scrape_emails (o : ImapOracle) (dateStr folder : String) (days : Nat)
    (keyword sender : Option String) (max_emails : Nat) :
    Except String (List ScrapedRow) :=
  match scrape_emails_body o dateStr folder days keyword sender max_emails with
  | .ok r => .ok r
  | .error _ => .ok []

/-- The `try:` body of the scraper's `connect`: `IMAP4_SSL(...)` then
`login(...)`, each a fallible transport call. -/
def connect_body (mkConn loginRes : Except String Unit) :
    Except String (Bool × String) :=
  match mkConn with
  | .error e => .error e
  | .ok _ =>
    match loginRes with
    | .error e => .error e
    | .ok _ => .ok (true, "Connected successfully!")

/-- The scraper's `connect`: the body with its `except Exception` handler
returning `(False, "Connection failed: " + str(e))`. -/
def connect (mkConn loginRes : Except String Unit) :
    Except String (Bool × String) :=
  match connect_body mkConn loginRes with
  | .ok r => .ok r
  | .error e => .ok (false, "Connection failed: " ++ e)

/-- The scraper's `disconnect`:
`if self.imap: try: close(); logout() except: pass`. -/
def disconnect (imap : Option Unit) (closeRes logoutRes : Except String Unit) :
    Except String Unit :=
  match imap with
  | none => .ok ()
  | some _ =>
    match closeRes with
    | .error _ => .ok ()
    | .ok _ =>
      match logoutRes with
      | .error _ => .ok ()
      | .ok _ => .ok ()

end EmailScraper

/-! ## Supporting lemmas: row lookup and the bulk loop -/

namespace EmailSender

theorem lookupVal_eq_rowGet (cols vals : List String) (c d : String)
    (halign : vals.length = cols.length) (hc : c ∈ cols) :
    lookupVal cols vals c = .ok (rowGet cols vals c d) := by
  unfold lookupVal rowGet
  cases h : (cols.zip vals).lookup c with
  | some v => rfl
  | none =>
    exfalso
    rw [List.lookup_eq_none_iff] at h
    have hmem : c ∈ (cols.zip vals).map Prod.fst := by
      rw [List.map_fst_zip cols vals (le_of_eq halign.symm)]
      exact hc
    obtain ⟨p, hp, hpc⟩ := List.mem_map.mp hmem
    have := h p hp
    simp [hpc] at this

theorem rowGet_of_not_mem (cols vals : List String) (c d : String)
    (hc : c ∉ cols) : rowGet cols vals c d = d := by
  unfold rowGet
  cases h : (cols.zip vals).lookup c with
  | none => rfl
  | some v =>
    exfalso
    have hp := List.lookup_isSome_iff.mp (by rw [h]; rfl)
    obtain ⟨p, hp1, hp2⟩ := hp
    exact hc (by
      have := (List.of_mem_zip hp1).1
      simpa [show c = p.1 from by simpa using hp2] using this)

theorem lookupVal_of_not_mem (cols vals : List String) (c : String)
    (hc : c ∉ cols) : lookupVal cols vals c = .error (pyKeyError c) := by
  unfold lookupVal
  cases h : (cols.zip vals).lookup c with
  | none => rfl
  | some v =>
    exfalso
    have hp := List.lookup_isSome_iff.mp (by rw [h]; rfl)
    obtain ⟨p, hp1, hp2⟩ := hp
    exact hc (by
      have := (List.of_mem_zip hp1).1
      simpa [show c = p.1 from by simpa using hp2] using this)

/-- The pure value computed by the substitution loop when no lookup
raises. -/
def renderPure (cols vals pending : List String) (acc : String) : String :=
  pending.foldl (fun a c => pyReplace a (placeholder c) (rowGet cols vals c "")) acc

theorem renderListE_ok (cols vals : List String)
    (halign : vals.length = cols.length) :
    ∀ (pending : List String), (∀ c ∈ pending, c ∈ cols) → ∀ acc,
      renderListE cols vals pending acc = .ok (renderPure cols vals pending acc) := by
  intro pending
  induction pending with
  | nil => intro _ acc; simp [renderListE, renderPure]
  | cons c rest ih =>
    intro hsub acc
    have hc : c ∈ cols := hsub c (by simp)
    have h1 := lookupVal_eq_rowGet cols vals c "" halign hc
    simp only [renderListE, h1]
    rw [ih (fun x hx => hsub x (by simp [hx])) _]
    simp [renderPure]

theorem renderTemplateE_ok (cols vals : List String) (t : String)
    (halign : vals.length = cols.length) :
    renderTemplateE cols vals t = .ok (renderPure cols vals cols t) :=
  renderListE_ok cols vals halign cols (fun _ hx => hx) t

theorem processRowBody_ok_status (send : String → String → String → Bool × String)
    (cols vals : List String) (st bt : String) (r : SendResult)
    (h : processRowBody send cols vals st bt = .ok r) :
    r.Status = "Sent" ∨ r.Status = "Failed" := by
  unfold processRowBody at h
  cases h1 : renderTemplateE cols vals st with
  | error e => rw [h1] at h; exact absurd h (by simp)
  | ok subject =>
    rw [h1] at h
    cases h2 : renderTemplateE cols vals bt with
    | error e => rw [h2] at h; exact absurd h (by simp)
    | ok body =>
      rw [h2] at h
      cases h3 : lookupVal cols vals "email" with
      | error e => rw [h3] at h; exact absurd h (by simp)
      | ok em =>
        rw [h3] at h
        cases h
        by_cases hs : (send em subject body).1 = true
        · left; simp [hs]
        · right; simp [hs]

theorem processRow_status (send : String → String → String → Bool × String)
    (cols vals : List String) (st bt : String) :
    (processRow send cols vals st bt).Status = "Sent" ∨
    (processRow send cols vals st bt).Status = "Failed" := by
  unfold processRow
  cases h : processRowBody send cols vals st bt with
  | ok r => exact processRowBody_ok_status send cols vals st bt r h
  | error e => right; rfl

theorem processRow_err_char (send : String → String → String → Bool × String)
    (cols vals : List String) (st bt : String)
    (halign : vals.length = cols.length) (hno : "email" ∉ cols) :
    processRow send cols vals st bt
      = { Email := "Unknown", Name := rowGet cols vals "name" "N/A",
          Status := "Failed", Message := pyKeyError "email" } := by
  unfold processRow processRowBody
  rw [renderTemplateE_ok cols vals st halign, renderTemplateE_ok cols vals bt halign,
      lookupVal_of_not_mem cols vals "email" hno,
      rowGet_of_not_mem cols vals "email" "Unknown" hno]

theorem processRow_email_name (send : String → String → String → Bool × String)
    (cols vals : List String) (st bt : String)
    (halign : vals.length = cols.length) :
    (processRow send cols vals st bt).Email = rowGet cols vals "email" "Unknown" ∧
    (processRow send cols vals st bt).Name = rowGet cols vals "name" "N/A" := by
  by_cases hm : "email" ∈ cols
  · unfold processRow processRowBody
    rw [renderTemplateE_ok cols vals st halign, renderTemplateE_ok cols vals bt halign,
        lookupVal_eq_rowGet cols vals "email" "Unknown" halign hm]
    exact ⟨rfl, rfl⟩
  · rw [processRow_err_char send cols vals st bt halign hm,
        rowGet_of_not_mem cols vals "email" "Unknown" hm]
    exact ⟨rfl, rfl⟩

end EmailSender

/-! ## Supporting lemmas: the scrape loop -/

namespace EmailScraper

/-- Whether the fetch-and-parse of one identifier succeeds. -/
def fetchOk (o : ImapOracle) (i : String) : Bool :=
  match o.fetchRes i with
  | .ok _ => true
  | .error _ => false

theorem rowsFor_map_ID (o : ImapOracle) (l : List String) :
    (l.filterMap (fun i => match o.fetchRes i with
        | .ok m => some (buildRow i m)
        | .error _ => none)).map ScrapedRow.ID
      = l.filter (fun i => fetchOk o i) := by
  induction l with
  | nil => rfl
  | cons head tail ih =>
    cases h : o.fetchRes head with
    | ok m =>
      have hc : fetchOk o head = true := by unfold fetchOk; rw [h]
      have hid : (buildRow head m).ID = head := rfl
      simp [List.filterMap_cons, List.filter_cons, h, hc, hid, ih]
    | error e =>
      have hc : fetchOk o head = false := by unfold fetchOk; rw [h]
      simp [List.filterMap_cons, List.filter_cons, h, hc, ih]

theorem pySliceLast_length_le {n : Nat} (hn : 0 < n) (l : List α) :
    (pySliceLast n l).length ≤ n := by
  unfold pySliceLast
  rw [if_neg (by omega)]
  simp only [List.length_drop]
  omega

theorem pySliceLast_spec {n : Nat} (hn : 0 < n) (l : List α) (h : n ≤ l.length) :
    pySliceLast n l = l.drop (l.length - n) ∧ (pySliceLast n l).length = n := by
  unfold pySliceLast
  rw [if_neg (by omega)]
  refine ⟨rfl, ?_⟩
  simp only [List.length_drop]
  omega

theorem firstPlainDecoded_append (pre : List MimeTree) (p : MimeTree)
    (post : List MimeTree) (s : String)
    (hpre : ∀ q ∈ pre, isPlainCandidate q = true → q.decodedOf = none)
    (hp : isPlainCandidate p = true) (hs : p.decodedOf = some s) :
    firstPlainDecoded (pre ++ p :: post) = s := by
  induction pre with
  | nil =>
    simp only [List.nil_append, firstPlainDecoded, hp, if_true, hs]
  | cons q rest ih =>
    rw [List.cons_append]
    by_cases hq : isPlainCandidate q = true
    · have hqd := hpre q (by simp) hq
      simp only [firstPlainDecoded, hq, if_true, hqd]
      exact ih (fun x hx => hpre x (by simp [hx]))
    · simp only [firstPlainDecoded, hq, if_false]
      exact ih (fun x hx => hpre x (by simp [hx]))

theorem firstPlainDecoded_none (l : List MimeTree)
    (h : ∀ q ∈ l, isPlainCandidate q = true → q.decodedOf = none) :
    firstPlainDecoded l = "" := by
  induction l with
  | nil => rfl
  | cons q rest ih =>
    by_cases hq : isPlainCandidate q = true
    · simp only [firstPlainDecoded, hq, if_true, h q (by simp) hq]
      exact ih (fun x hx => h x (by simp [hx]))
    · simp only [firstPlainDecoded, hq, if_false]
      exact ih (fun x hx => h x (by simp [hx]))

theorem scrape_emails_run (o : ImapOracle) (dateStr folder : String) (days : Nat)
    (keyword sender : Option String) (max_emails : Nat) (ids : List String)
    (hsel : o.selectRes folder = .ok ())
    (hsearch : o.searchRes (searchString (buildSearchCriteria dateStr days keyword sender))
        = .ok ids) :
    scrape_emails o dateStr folder days keyword sender max_emails
      = .ok ((pySliceLast max_emails ids).filterMap (fun i =>
          match o.fetchRes i with
          | .ok m => some (buildRow i m)
          | .error _ => none)) := by
  unfold scrape_emails scrape_emails_body
  rw [hsel, hsearch]

end EmailScraper

/-! ## Claims about the bulk-send loop -/

namespace Claims

open EmailSender

/-- Claim C1: for every recipient table of size n passed to
`send_bulk_emails`, with any mix of per-row successes and failures
(including rows that raise, e.g. a missing `email` key), the result has
exactly n rows, in input order (row i of the result reports on recipient
row i, as witnessed by its `Email`/`Name` fields), and each row's
`Status` is exactly `"Sent"` or `"Failed"`; no failure terminates the
loop early. -/
theorem C1_bulk_completeness (send : String → String → String → Bool × String)
    (cols : List String) (rows : List (List String)) (st bt : String)
    (halign : ∀ r ∈ rows, r.length = cols.length) :
    (send_bulk_emails send cols rows st bt).length = rows.length ∧
    (∀ res ∈ send_bulk_emails send cols rows st bt,
        res.Status = "Sent" ∨ res.Status = "Failed") ∧
    (∀ i (h1 : i < (send_bulk_emails send cols rows st bt).length)
        (h2 : i < rows.length),
      ((send_bulk_emails send cols rows st bt).get ⟨i, h1⟩).Email
          = rowGet cols (rows.get ⟨i, h2⟩) "email" "Unknown" ∧
      ((send_bulk_emails send cols rows st bt).get ⟨i, h1⟩).Name
          = rowGet cols (rows.get ⟨i, h2⟩) "name" "N/A") := by
  refine ⟨by simp [send_bulk_emails], ?_, ?_⟩
  · intro res hres
    obtain ⟨vals, _, rfl⟩ := List.mem_map.mp (by simpa [send_bulk_emails] using hres)
    exact processRow_status send cols vals st bt
  · intro i h1 h2
    have hg : (send_bulk_emails send cols rows st bt).get ⟨i, h1⟩
        = processRow send cols (rows.get ⟨i, h2⟩) st bt := by
      simp [send_bulk_emails, List.getElem_map]
    rw [hg]
    exact processRow_email_name send cols (rows.get ⟨i, h2⟩) st bt
      (halign _ (rows.get_mem _ _))

/-- Witness for C1 at a concrete two-row table where the first send
succeeds and the second fails. -/
theorem C1_bulk_completeness_witness :
    (send_bulk_emails (fun e _ _ => (e = "a@x", "m")) ["email", "name"]
        [["a@x", "Ava"], ["bad@x", "Bo"]] "s" "b").length = 2 :=
  (C1_bulk_completeness (fun e _ _ => (e = "a@x", "m")) ["email", "name"]
    [["a@x", "Ava"], ["bad@x", "Bo"]] "s" "b" (by decide)).1

/-- Counterexample to C4: a recipient table that structurally lacks the
`email` column is not rejected before iteration begins — `send_bulk_emails`
iterates all rows and reports the missing key as ordinary per-row `Failed`
results (with `str(KeyError)` diagnostics), indistinguishable in kind from
per-row send failures; no send is invoked, but no fail-fast failure is
surfaced either. -/
theorem C4_counterexample :
    send_bulk_emails (fun _ _ _ => (true, "Email sent successfully!")) ["name"]
        [["Ava"], ["Bo"]] "Hi \x7bname\x7d" "Body"
      = [{ Email := "Unknown", Name := "Ava", Status := "Failed",
           Message := pyKeyError "email" },
         { Email := "Unknown", Name := "Bo", Status := "Failed",
           Message := pyKeyError "email" }] := by
  decide

/-- Claim C4 as amended: when the recipient table lacks the `email`
column, `send_bulk_emails` does not fail fast before iteration; it
produces one per-row `Failed` result per recipient row, whose `Email` is
the `"Unknown"` fallback and whose diagnostic is the raised `KeyError`
text. -/
theorem C4_no_failfast_validation (send : String → String → String → Bool × String)
    (cols : List String) (rows : List (List String)) (st bt : String)
    (halign : ∀ r ∈ rows, r.length = cols.length)
    (hno : "email" ∉ cols) :
    send_bulk_emails send cols rows st bt
      = rows.map (fun vals =>
          { Email := "Unknown", Name := rowGet cols vals "name" "N/A",
            Status := "Failed", Message := pyKeyError "email" }) := by
  unfold send_bulk_emails
  exact List.map_congr_left (fun vals hv =>
    processRow_err_char send cols vals st bt (halign vals hv) hno)

/-- Witness for the amended C4 at a concrete one-column table. -/
theorem C4_no_failfast_validation_witness :
    send_bulk_emails (fun _ _ _ => (true, "ok")) ["name"] [["Ava"], ["Bo"]] "s" "b"
      = [["Ava"], ["Bo"]].map (fun vals =>
          { Email := "Unknown", Name := rowGet ["name"] vals "name" "N/A",
            Status := "Failed", Message := pyKeyError "email" }) :=
  C4_no_failfast_validation (fun _ _ _ => (true, "ok")) ["name"] [["Ava"], ["Bo"]]
    "s" "b" (by decide) (by decide)

/-- Counterexample to C3: with an attachment path that does not exist on
the filesystem and a transport that accepts the message, `send_email`
returns success — the missing attachment file is silently skipped by the
`if os.path.exists` guard rather than being caught and reported as
`(false, reason)` as the claim requires for every listed failure. -/
theorem C3_counterexample :
    send_email ⟨[]⟩ (fun _ => .ok ()) "me@x" "you@x" "s" "b"
        (some ["/tmp/missing.txt"]) false
      = .ok (true, "Email sent successfully!") ∧
    FileSystem.pathExists ⟨[]⟩ "/tmp/missing.txt" = false := by
  exact ⟨rfl, rfl⟩

/-- Claim C3 as amended: `send_email` never raises to the caller — every
transport error or server rejection raised by the session's
`send_message` is caught and reported as
`(false, "Failed to send: " + reason)`, and a successful transmission
reports `(true, ...)`; a missing attachment file, however, is not a
failure: it is silently skipped and the message is sent without it. -/
theorem C3_error_containment (fs : FileSystem)
    (smtpSend : MIMEMessage → Except String Unit)
    (selfEmail to_email subject body : String)
    (attachments : Option (List String)) (is_html : Bool) :
    (∃ r, send_email fs smtpSend selfEmail to_email subject body attachments is_html
        = .ok r) ∧
    (∀ e, smtpSend (buildMessage fs selfEmail to_email subject body attachments is_html)
          = .error e →
      send_email fs smtpSend selfEmail to_email subject body attachments is_html
        = .ok (false, "Failed to send: " ++ e)) ∧
    (∀ u, smtpSend (buildMessage fs selfEmail to_email subject body attachments is_html)
          = .ok u →
      send_email fs smtpSend selfEmail to_email subject body attachments is_html
        = .ok (true, "Email sent successfully!")) := by
  unfold send_email send_email_body
  cases h : smtpSend (buildMessage fs selfEmail to_email subject body attachments is_html) with
  | ok u =>
    refine ⟨⟨(true, "Email sent successfully!"), rfl⟩, ?_, fun _ _ => rfl⟩
    intro e he
    cases he
  | error e0 =>
    refine ⟨⟨(false, "Failed to send: " ++ e0), rfl⟩, ?_, ?_⟩
    · intro e he
      injection he with h2
      subst h2
      rfl
    · intro u hu
      cases hu

/-- Witness for the amended C3: a rejecting transport is reported as a
`(false, ...)` value. -/
theorem C3_error_containment_witness :
    send_email ⟨[]⟩ (fun _ => .error "boom") "a" "b" "s" "t" none false
      = .ok (false, "Failed to send: boom") :=
  (C3_error_containment ⟨[]⟩ (fun _ => .error "boom") "a" "b" "s" "t"
    none false).2.1 "boom" rfl

/-- Claim C8: every attachment path that exists on the filesystem yields
a MIME part of the built message that is base64-encoded and carries a
`Content-Disposition` attachment header whose filename is the path's base
name with every directory component stripped (the base name contains no
`/`); in particular the base name of `/tmp/foo/report.pdf` is
`report.pdf`. -/
theorem C8_attachment_naming (fs : FileSystem)
    (selfEmail to_email subject body : String) (atts : List String)
    (is_html : Bool) (p : String)
    (hp : p ∈ atts) (hex : fs.pathExists p = true) :
    (∃ part ∈ (buildMessage fs selfEmail to_email subject body (some atts) is_html).parts,
        part.base64Encoded = true ∧
        part.headers
          = [("Content-Disposition", "attachment; filename= " ++ basename p)] ∧
        part.payload = fs.readFile p) ∧
    (∀ c ∈ (basename p).data, c ≠ '/') ∧
    basename "/tmp/foo/report.pdf" = "report.pdf" := by
  refine ⟨?_, ?_, rfl⟩
  · refine ⟨{ mainType := "application", subType := "octet-stream",
              payload := fs.readFile p, base64Encoded := true,
              headers := [("Content-Disposition",
                           "attachment; filename= " ++ basename p)] }, ?_, rfl, rfl, rfl⟩
    unfold buildMessage
    refine List.mem_cons_of_mem _ (List.mem_filterMap.mpr ⟨p, by simpa using hp, ?_⟩)
    unfold attachmentPart
    rw [if_pos hex]
  · intro c hc
    have hc2 : c ∈ p.data.reverse.takeWhile (fun x => x ≠ '/') := by
      have : (basename p).data = (p.data.reverse.takeWhile (fun x => x ≠ '/')).reverse := rfl
      rw [this] at hc
      exact List.mem_reverse.mp hc
    have := List.mem_takeWhile_imp hc2
    simpa using this

/-- Witness for C8 at a concrete filesystem holding one file in a nested
directory. -/
theorem C8_attachment_naming_witness :
    ∃ part ∈ (buildMessage ⟨[("/tmp/foo/report.pdf", "PDF")]⟩ "me" "you" "s" "b"
        (some ["/tmp/foo/report.pdf"]) false).parts,
      part.base64Encoded = true ∧
      part.headers
        = [("Content-Disposition",
            "attachment; filename= " ++ basename "/tmp/foo/report.pdf")] ∧
      part.payload = FileSystem.readFile ⟨[("/tmp/foo/report.pdf", "PDF")]⟩ "/tmp/foo/report.pdf" :=
  (C8_attachment_naming ⟨[("/tmp/foo/report.pdf", "PDF")]⟩ "me" "you" "s" "b"
    ["/tmp/foo/report.pdf"] false "/tmp/foo/report.pdf" (by simp) (by decide)).1

/-- Claim C5: the `Body` field of a scraped row is the whitespace
normalized body truncated at 200 characters with a `"..."` marker when
longer, and the whitespace-normalized body itself when its length is at
most 200. -/
theorem C5_body_truncation (email_id : String) (msg : EmailScraper.EmailMsg) :
    ((EmailScraper.get_email_body msg.content).length > 200 →
      (EmailScraper.buildRow email_id msg).Body
        = (EmailScraper.get_email_body msg.content).take 200 ++ "...") ∧
    ((EmailScraper.get_email_body msg.content).length ≤ 200 →
      (EmailScraper.buildRow email_id msg).Body
        = EmailScraper.get_email_body msg.content) := by
  constructor
  · intro h
    simp only [EmailScraper.buildRow, EmailScraper.truncateBody]
    rw [if_pos h]
  · intro h
    simp only [EmailScraper.buildRow, EmailScraper.truncateBody]
    rw [if_neg (by omega)]

/-- A concrete message whose normalized body is 210 characters long. -/
def longMsg : EmailScraper.EmailMsg :=
  { subject := none, fromHdr := none, dateHdr := none,
    content := .leaf "text/plain" none (some (String.mk (List.replicate 210 'a'))) "" none }

set_option maxRecDepth 8000 in
/-- Witness for C5 at a message with a 210-character body. -/
theorem C5_body_truncation_witness :
    (EmailScraper.buildRow "1" longMsg).Body
      = (EmailScraper.get_email_body longMsg.content).take 200 ++ "..." :=
  (C5_body_truncation "1" longMsg).1 (by decide)

/-- Claim C9: every public core operation converts failures into return
values and never lets a raise escape: both `connect`s return `.ok` for
every transport outcome and report failures as
`(false, "Connection failed: " + reason)`; a scrape whose folder
selection or search raises returns an empty result (and a scrape never
raises at all); both `disconnect`s tolerate a never-opened or broken
session; `send_email` always returns a value. -/
theorem C9_failure_containment :
    (∀ mk login, ∃ r, EmailScraper.connect mk login = .ok r) ∧
    (∀ mk login e, (mk = .error e ∨ (mk = .ok () ∧ login = .error e)) →
      EmailScraper.connect mk login = .ok (false, "Connection failed: " ++ e)) ∧
    (∀ (o : EmailScraper.ImapOracle) dateStr folder days keyword sender n,
      ∃ rows, EmailScraper.scrape_emails o dateStr folder days keyword sender n
        = .ok rows) ∧
    (∀ (o : EmailScraper.ImapOracle) dateStr folder days keyword sender n e,
      o.selectRes folder = .error e →
      EmailScraper.scrape_emails o dateStr folder days keyword sender n = .ok []) ∧
    (∀ (o : EmailScraper.ImapOracle) dateStr folder days keyword sender n e,
      o.selectRes folder = .ok () →
      o.searchRes (EmailScraper.searchString
          (EmailScraper.buildSearchCriteria dateStr days keyword sender)) = .error e →
      EmailScraper.scrape_emails o dateStr folder days keyword sender n = .ok []) ∧
    (∀ imap closeRes logoutRes,
      EmailScraper.disconnect imap closeRes logoutRes = .ok ()) ∧
    (∀ mk st login, ∃ r, EmailSender.connect mk st login = .ok r) ∧
    (∀ smtp quitRes, EmailSender.disconnect smtp quitRes = .ok ()) ∧
    (∀ fs smtpSend a b c d att ih,
      ∃ r, EmailSender.send_email fs smtpSend a b c d att ih = .ok r) := by
  refine ⟨?_, ?_, ?_, ?_, ?_, ?_, ?_, ?_, ?_⟩
  · intro mk login
    cases mk with
    | error e => exact ⟨(false, "Connection failed: " ++ e), rfl⟩
    | ok u =>
      cases login with
      | error e => exact ⟨(false, "Connection failed: " ++ e), rfl⟩
      | ok v => exact ⟨(true, "Connected successfully!"), rfl⟩
  · intro mk login e h
    rcases h with rfl | ⟨rfl, rfl⟩
    · rfl
    · rfl
  · intro o dateStr folder days keyword sender n
    unfold EmailScraper.scrape_emails EmailScraper.scrape_emails_body
    cases h1 : o.selectRes folder with
    | error e => exact ⟨[], rfl⟩
    | ok u =>
      cases h2 : o.searchRes (EmailScraper.searchString
          (EmailScraper.buildSearchCriteria dateStr days keyword sender)) with
      | error e => exact ⟨[], rfl⟩
      | ok ids => exact ⟨_, rfl⟩
  · intro o dateStr folder days keyword sender n e h
    unfold EmailScraper.scrape_emails EmailScraper.scrape_emails_body
    rw [h]
  · intro o dateStr folder days keyword sender n e hsel hsearch
    unfold EmailScraper.scrape_emails EmailScraper.scrape_emails_body
    rw [hsel, hsearch]
  · intro imap closeRes logoutRes
    cases imap with
    | none => rfl
    | some u =>
      cases closeRes with
      | error e => rfl
      | ok v =>
        cases logoutRes with
        | error e => rfl
        | ok w => rfl
  · intro mk st login
    cases mk with
    | error e => exact ⟨(false, "Connection failed: " ++ e), rfl⟩
    | ok u =>
      cases st with
      | error e => exact ⟨(false, "Connection failed: " ++ e), rfl⟩
      | ok v =>
        cases login with
        | error e => exact ⟨(false, "Connection failed: " ++ e), rfl⟩
        | ok w => exact ⟨(true, "Connected successfully!"), rfl⟩
  · intro smtp quitRes
    cases smtp with
    | none => rfl
    | some u =>
      cases quitRes with
      | error e => rfl
      | ok v => rfl
  · intro fs smtpSend a b c d att ih
    unfold EmailSender.send_email EmailSender.send_email_body
    cases h : smtpSend (buildMessage fs a b c d att ih) with
    | ok u => exact ⟨(true, "Email sent successfully!"), rfl⟩
    | error e => exact ⟨(false, "Failed to send: " ++ e), rfl⟩

/-- Witness for C9: a failed login is reported as a return value. -/
theorem C9_failure_containment_witness :
    EmailScraper.connect (.error "auth refused") (.ok ())
      = .ok (false, "Connection failed: " ++ "auth refused") :=
  C9_failure_containment.2.1 (.error "auth refused") (.ok ()) "auth refused"
    (Or.inl rfl)

/-- A concrete IMAP oracle: three search hits, the fetch of id "2"
raising, the others decoding to a small plain-text message. -/
def oracleEx : EmailScraper.ImapOracle :=
  { selectRes := fun _ => .ok (),
    searchRes := fun _ => .ok ["1", "2", "3"],
    fetchRes := fun i =>
      if i = "2" then .error "boom"
      else .ok { subject := none, fromHdr := none, dateHdr := none,
                 content := .leaf "text/plain" none (some "hi") "" none } }

/-- Claim C6: for every positive `maxCount = n`, the scrape result has at
most n rows, the identifiers fetched and decoded are exactly the kept
slice `email_ids[-n:]` filtered by fetch success (in server order), and
when the search returns at least n identifiers that slice is exactly the
last n identifiers of the server's sequence. -/
theorem C6_scrape_bounds (o : EmailScraper.ImapOracle) (dateStr folder : String)
    (days : Nat) (keyword sender : Option String) (n : Nat) (ids : List String)
    (hn : 0 < n)
    (hsel : o.selectRes folder = .ok ())
    (hsearch : o.searchRes (EmailScraper.searchString
        (EmailScraper.buildSearchCriteria dateStr days keyword sender)) = .ok ids) :
    ∃ rows, EmailScraper.scrape_emails o dateStr folder days keyword sender n
        = .ok rows ∧
      rows.length ≤ n ∧
      rows.map EmailScraper.ScrapedRow.ID
        = (pySliceLast n ids).filter (fun i => EmailScraper.fetchOk o i) ∧
      (n ≤ ids.length →
        pySliceLast n ids = ids.drop (ids.length - n) ∧
        (pySliceLast n ids).length = n) := by
  refine ⟨_, EmailScraper.scrape_emails_run o dateStr folder days keyword sender n ids
    hsel hsearch, ?_, EmailScraper.rowsFor_map_ID o _, fun h =>
    EmailScraper.pySliceLast_spec hn ids h⟩
  exact le_trans (List.length_filterMap_le _ _) (EmailScraper.pySliceLast_length_le hn ids)

/-- Witness for C6: three search hits, `maxCount = 2`, the fetch of the
second kept identifier failing. -/
theorem C6_scrape_bounds_witness :
    ∃ rows, EmailScraper.scrape_emails oracleEx "01-Jan-2026" "INBOX" 7 none none 2
        = .ok rows ∧
      rows.length ≤ 2 ∧
      rows.map EmailScraper.ScrapedRow.ID
        = (pySliceLast 2 ["1", "2", "3"]).filter
            (fun i => EmailScraper.fetchOk oracleEx i) ∧
      (2 ≤ ["1", "2", "3"].length →
        pySliceLast 2 ["1", "2", "3"] = ["1", "2", "3"].drop (["1", "2", "3"].length - 2) ∧
        (pySliceLast 2 ["1", "2", "3"]).length = 2) :=
  C6_scrape_bounds oracleEx "01-Jan-2026" "INBOX" 7 none none 2 ["1", "2", "3"]
    (by decide) rfl rfl

/-- Claim C10: at the out-of-contract boundary value `max_emails = 0`,
the slice `email_ids[-0:]` is the whole identifier list, so the count
limit is silently bypassed: every identifier matched by the search is
fetched and decoded. -/
theorem C10_zero_bypasses_limit (o : EmailScraper.ImapOracle) (dateStr folder : String)
    (days : Nat) (keyword sender : Option String) (ids : List String)
    (hsel : o.selectRes folder = .ok ())
    (hsearch : o.searchRes (EmailScraper.searchString
        (EmailScraper.buildSearchCriteria dateStr days keyword sender)) = .ok ids) :
    ∃ rows, EmailScraper.scrape_emails o dateStr folder days keyword sender 0
        = .ok rows ∧
      pySliceLast 0 ids = ids ∧
      rows.map EmailScraper.ScrapedRow.ID
        = ids.filter (fun i => EmailScraper.fetchOk o i) :=
  ⟨_, EmailScraper.scrape_emails_run o dateStr folder days keyword sender 0 ids
    hsel hsearch, rfl, EmailScraper.rowsFor_map_ID o ids⟩

/-- Witness for C10: with `max_emails = 0` all three matching identifiers
are decoded (none dropped by the limit). -/
theorem C10_zero_bypasses_limit_witness :
    ∃ rows, EmailScraper.scrape_emails oracleEx "01-Jan-2026" "INBOX" 7 none none 0
        = .ok rows ∧
      pySliceLast 0 ["1", "2", "3"] = ["1", "2", "3"] ∧
      rows.map EmailScraper.ScrapedRow.ID
        = ["1", "2", "3"].filter (fun i => EmailScraper.fetchOk oracleEx i) :=
  C10_zero_bypasses_limit oracleEx "01-Jan-2026" "INBOX" 7 none none ["1", "2", "3"]
    rfl rfl

/-- A multipart message whose only part is `text/html`: no `text/plain`
part exists anywhere in its tree. -/
def htmlOnly : EmailScraper.MimeTree :=
  .multi "multipart/alternative" none
    [.leaf "text/html" none (some "Hello") "Hello" none]

/-- Counterexample to C2: for a multipart message with no `text/plain`
part, the extracted body is the empty string — the code does not fall
back to the message's payload (the fallback branch only runs for
non-multipart messages), even though the sole part decodes to
`"Hello"`. -/
theorem C2_counterexample :
    EmailScraper.get_email_body htmlOnly = "" ∧
    htmlOnly.is_multipart = true ∧
    htmlOnly.walk.filter (fun p => EmailScraper.isPlainCandidate p) = [] ∧
    (EmailScraper.MimeTree.leaf "text/html" none (some "Hello") "Hello"
        none).decodedOf = some "Hello" :=
  ⟨rfl, rfl, rfl, rfl⟩

/-- Claim C2 as amended: for a multipart message the body comes from the
first `text/plain` non-attachment part in depth-first walk order whose
payload decodes successfully (a part whose decode raises is skipped and
the walk continues); if no such part decodes, the body is empty — there
is no fallback to the top-level payload. Only for a non-multipart
message is the single payload used: its decoded text when decoding
succeeds, and `str()` of the raw payload when decoding raises. The
result is always whitespace-normalized. -/
theorem C2_body_extraction (msg : EmailScraper.MimeTree) :
    (∀ (pre post : List EmailScraper.MimeTree) (p : EmailScraper.MimeTree) (s : String),
      msg.is_multipart = true →
      msg.walk = pre ++ p :: post →
      (∀ q ∈ pre, EmailScraper.isPlainCandidate q = true → q.decodedOf = none) →
      EmailScraper.isPlainCandidate p = true → p.decodedOf = some s →
      EmailScraper.get_email_body msg = normalizeWs s) ∧
    (msg.is_multipart = true →
      (∀ q ∈ msg.walk, EmailScraper.isPlainCandidate q = true → q.decodedOf = none) →
      EmailScraper.get_email_body msg = "") ∧
    (∀ s, msg.is_multipart = false → msg.decodedOf = some s →
      EmailScraper.get_email_body msg = normalizeWs s) ∧
    (msg.is_multipart = false → msg.decodedOf = none →
      EmailScraper.get_email_body msg = normalizeWs msg.rawOf) := by
  refine ⟨?_, ?_, ?_, ?_⟩
  · intro pre post p s hm hwalk hpre hp hs
    unfold EmailScraper.get_email_body
    rw [hm, hwalk]
    simp only [if_true]
    rw [EmailScraper.firstPlainDecoded_append pre p post s hpre hp hs]
  · intro hm hall
    unfold EmailScraper.get_email_body
    rw [hm]
    simp only [if_true]
    rw [EmailScraper.firstPlainDecoded_none msg.walk hall]
    rfl
  · intro s hm hs
    unfold EmailScraper.get_email_body
    rw [hm, hs]
    simp
  · intro hm hs
    unfold EmailScraper.get_email_body
    rw [hm, hs]
    simp

/-- A multipart message whose first `text/plain` part fails to decode and
whose second decodes. -/
def mixedMsg : EmailScraper.MimeTree :=
  .multi "multipart/mixed" none
    [.leaf "text/plain" none none "broken" none,
     .leaf "text/plain" none (some " hi   there ") "" none]

/-- Witness for the amended C2: the undecodable first part is skipped and
the second part's decoded text, whitespace-normalized, is the body. -/
theorem C2_body_extraction_witness :
    EmailScraper.get_email_body mixedMsg = normalizeWs " hi   there " :=
  (C2_body_extraction mixedMsg).1
    [mixedMsg, .leaf "text/plain" none none "broken" none] []
    (.leaf "text/plain" none (some " hi   there ") "" none) " hi   there "
    rfl rfl
    (by
      intro q hq hcand
      simp only [List.mem_cons, List.not_mem_nil, or_false] at hq
      rcases hq with rfl | rfl
      · exact absurd hcand (by decide)
      · rfl)
    (by decide) rfl

end Claims

/-! ## Supporting development: characterizing the substitution loop

To state what the sequential `str.replace` loop computes, a template is
decomposed into literal runs and `{name}` tokens.  When literal runs,
token names, column names and row values contain no brace characters —
the regime the spec's placeholder syntax describes — the loop performs
exactly one simultaneous substitution: every token of a present column is
replaced by the row value, every other token is left verbatim. -/

namespace EmailSender

/-- The opening placeholder delimiter. -/
def lbrace : Char := '\x7b'

/-- The closing placeholder delimiter. -/
def rbrace : Char := '\x7d'

/-- A template decomposed into literal runs and `{name}` tokens. -/
inductive TemplateSeg where
  | lit (s : String)
  | tok (name : String)
deriving DecidableEq, Repr

/-- The text of one segment. -/
def segString : TemplateSeg → String
  | .lit s => s
  | .tok n => placeholder n

/-- The template text of a decomposition. -/
def flattenSegs : List TemplateSeg → String
  | [] => ""
  | s :: rest => segString s ++ flattenSegs rest

/-- No placeholder delimiter occurs among the characters. -/
def braceFreeB (l : List Char) : Bool :=
  l.all (fun c => c ≠ lbrace && c ≠ rbrace)

/-- Brace-freedom of a segment's own text content (the literal run, or
the token's name). -/
def braceFreeSeg : TemplateSeg → Bool
  | .lit s => braceFreeB s.data
  | .tok n => braceFreeB n.data

/-- Substitution of a single column's token by its value. -/
def substTok (c v : String) : TemplateSeg → TemplateSeg
  | .lit s => .lit s
  | .tok n => if n = c then .lit v else .tok n

/-- The simultaneous substitution the claim describes: tokens of columns
in `pending` become the row's value for that column, all other tokens
stay verbatim. -/
def substCols (cols vals pending : List String) : TemplateSeg → TemplateSeg
  | .lit s => .lit s
  | .tok n => if n ∈ pending then .lit (rowGet cols vals n "") else .tok n

theorem placeholder_data (c : String) :
    (placeholder c).data = lbrace :: (c.data ++ [rbrace]) := by
  simp [placeholder, lbrace, rbrace]

theorem braceFree_not_mem_lb {l : List Char} (h : braceFreeB l = true) :
    lbrace ∉ l := by
  intro hm
  have h2 := List.all_eq_true.mp h _ hm
  simp at h2

theorem braceFree_ne_rb {l : List Char} (h : braceFreeB l = true) {x : Char}
    (hx : x ∈ l) : x ≠ rbrace := by
  have h2 := List.all_eq_true.mp h _ hx
  simp at h2
  exact h2.2

theorem not_prefix_of_ne (t : List Char) :
    ∀ (c n : List Char), (∀ x ∈ c, x ≠ rbrace) → (∀ x ∈ n, x ≠ rbrace) → n ≠ c →
      ¬ ((c ++ [rbrace]) <+: (n ++ ([rbrace] ++ t))) := by
  intro c
  induction c with
  | nil =>
    intro n _ hn hne hpre
    cases n with
    | nil => exact hne rfl
    | cons y n1 =>
      rw [List.nil_append, List.cons_append, List.cons_prefix_cons] at hpre
      exact hn y (by simp) hpre.1.symm
  | cons x c1 ih =>
    intro n hc hn hne hpre
    cases n with
    | nil =>
      rw [List.cons_append, List.nil_append, List.singleton_append,
          List.cons_prefix_cons] at hpre
      exact hc x (by simp) hpre.1
    | cons y n1 =>
      rw [List.cons_append, List.cons_append, List.cons_prefix_cons] at hpre
      obtain ⟨hxy, hrest⟩ := hpre
      subst hxy
      exact ih n1 (fun z hz => hc z (by simp [hz])) (fun z hz => hn z (by simp [hz]))
        (fun h => hne (by rw [h])) hrest

theorem replaceChars_skip (t ptail rep : List Char) :
    ∀ (s : List Char), lbrace ∉ s →
      replaceChars (s ++ t) (lbrace :: ptail) rep
        = s ++ replaceChars t (lbrace :: ptail) rep := by
  intro s
  induction s with
  | nil => intro _; simp
  | cons a s1 ih =>
    intro hs
    have ha : a ≠ lbrace := fun h => hs (by simp [h])
    have hneg : ¬((lbrace :: ptail) ≠ [] ∧
        (lbrace :: ptail).isPrefixOf (a :: (s1 ++ t))) := by
      rintro ⟨-, hpre⟩
      rw [List.isPrefixOf_iff_prefix, List.cons_prefix_cons] at hpre
      exact ha hpre.1.symm
    rw [List.cons_append, replaceChars_cons, if_neg hneg,
        ih (fun h => hs (List.mem_cons_of_mem a h)), List.cons_append]

theorem replaceChars_at_match (pat t rep : List Char) (hne : pat ≠ []) :
    replaceChars (pat ++ t) pat rep = rep ++ replaceChars t pat rep := by
  cases pat with
  | nil => exact absurd rfl hne
  | cons c cs =>
    rw [List.cons_append, replaceChars_cons]
    have hpre : (c :: cs).isPrefixOf (c :: (cs ++ t)) = true := by
      rw [List.isPrefixOf_iff_prefix,
          show c :: (cs ++ t) = (c :: cs) ++ t from (List.cons_append c cs t).symm]
      exact List.prefix_append _ _
    rw [if_pos ⟨by simp, hpre⟩]
    congr 1
    rw [show c :: (cs ++ t) = (c :: cs) ++ t from (List.cons_append c cs t).symm,
        List.drop_left]

theorem flattenSegs_data_cons (seg : TemplateSeg) (rest : List TemplateSeg) :
    (flattenSegs (seg :: rest)).data = (segString seg).data ++ (flattenSegs rest).data := by
  simp [flattenSegs]

theorem braceFreeSeg_substTok (c v : String) (hv : braceFreeB v.data = true)
    (seg : TemplateSeg) (hs : braceFreeSeg seg = true) :
    braceFreeSeg (substTok c v seg) = true := by
  cases seg with
  | lit s => exact hs
  | tok n =>
    show braceFreeSeg (if n = c then TemplateSeg.lit v else TemplateSeg.tok n) = true
    by_cases h : n = c
    · rw [if_pos h]; exact hv
    · rw [if_neg h]; exact hs

theorem replaceChars_flatten (c v : String) (segs : List TemplateSeg)
    (hsegs : ∀ seg ∈ segs, braceFreeSeg seg = true)
    (hcb : braceFreeB c.data = true) (hvb : braceFreeB v.data = true) :
    replaceChars (flattenSegs segs).data (placeholder c).data v.data
      = (flattenSegs (segs.map (substTok c v))).data := by
  induction segs with
  | nil => rfl
  | cons seg rest ih =>
    have hrest : ∀ s ∈ rest, braceFreeSeg s = true :=
      fun s hs => hsegs s (List.mem_cons_of_mem _ hs)
    have ihr := ih hrest
    cases seg with
    | lit s =>
      have hlit : braceFreeB s.data = true := hsegs (.lit s) (by simp)
      rw [flattenSegs_data_cons, placeholder_data,
          replaceChars_skip _ _ _ (segString (TemplateSeg.lit s)).data
            (braceFree_not_mem_lb hlit),
          ← placeholder_data, ihr, List.map_cons, flattenSegs_data_cons]
      rfl
    | tok n =>
      have htok : braceFreeB n.data = true := hsegs (.tok n) (by simp)
      by_cases hnc : n = c
      · subst hnc
        rw [flattenSegs_data_cons,
            show (segString (TemplateSeg.tok n)).data = (placeholder n).data from rfl,
            replaceChars_at_match _ _ _ (by rw [placeholder_data]; simp),
            ihr, List.map_cons,
            show substTok n v (.tok n) = .lit v from by simp [substTok],
            flattenSegs_data_cons]
        rfl
      · rw [flattenSegs_data_cons,
            show (segString (TemplateSeg.tok n)).data = lbrace :: (n.data ++ [rbrace])
              from placeholder_data n,
            placeholder_data, List.cons_append, replaceChars_cons]
        have hneg : ¬((lbrace :: (c.data ++ [rbrace])) ≠ [] ∧
            (lbrace :: (c.data ++ [rbrace])).isPrefixOf
              (lbrace :: ((n.data ++ [rbrace]) ++ (flattenSegs rest).data))) := by
          rintro ⟨-, hpre⟩
          rw [List.isPrefixOf_iff_prefix, List.cons_prefix_cons] at hpre
          have hpre2 := hpre.2
          rw [List.append_assoc] at hpre2
          have hdata : n.data ≠ c.data := fun h => hnc (String.ext h)
          exact not_prefix_of_ne (flattenSegs rest).data c.data n.data
            (fun x hx => braceFree_ne_rb hcb hx)
            (fun x hx => braceFree_ne_rb htok hx) hdata hpre2
        have hnolb : lbrace ∉ n.data ++ [rbrace] := by
          intro hm
          rcases List.mem_append.mp hm with hm | hm
          · exact braceFree_not_mem_lb htok hm
          · exact absurd (List.mem_singleton.mp hm) (by decide)
        rw [if_neg hneg,
            replaceChars_skip (flattenSegs rest).data (c.data ++ [rbrace]) v.data
              (n.data ++ [rbrace]) hnolb,
            ← placeholder_data, ihr, List.map_cons,
            show substTok c v (.tok n) = .tok n from by simp [substTok, hnc],
            flattenSegs_data_cons,
            show (segString (TemplateSeg.tok n)).data = lbrace :: (n.data ++ [rbrace])
              from placeholder_data n,
            List.cons_append]

theorem substTok_substCols (cols vals : List String) (c : String)
    (rest : List String) (seg : TemplateSeg) :
    substCols cols vals rest (substTok c (rowGet cols vals c "") seg)
      = substCols cols vals (c :: rest) seg := by
  cases seg with
  | lit s => rfl
  | tok n =>
    by_cases h1 : n = c
    · subst h1
      simp [substTok, substCols]
    · by_cases h2 : n ∈ rest <;> simp [substTok, substCols, h1, h2]

theorem substCols_nil (cols vals : List String) (seg : TemplateSeg) :
    substCols cols vals [] seg = seg := by
  cases seg <;> simp [substCols]

theorem renderPure_flatten (cols vals : List String) :
    ∀ (pending : List String) (segs : List TemplateSeg),
      (∀ seg ∈ segs, braceFreeSeg seg = true) →
      (∀ c ∈ pending, braceFreeB c.data = true) →
      (∀ c ∈ pending, braceFreeB (rowGet cols vals c "").data = true) →
      renderPure cols vals pending (flattenSegs segs)
        = flattenSegs (segs.map (substCols cols vals pending)) := by
  intro pending
  induction pending with
  | nil =>
    intro segs hs _ _
    rw [show renderPure cols vals [] (flattenSegs segs) = flattenSegs segs from rfl]
    rw [List.map_congr_left (fun seg _ => (substCols_nil cols vals seg))]
    simp
  | cons c rest ih =>
    intro segs hs hp hv
    have hstep : pyReplace (flattenSegs segs) (placeholder c) (rowGet cols vals c "")
        = flattenSegs (segs.map (substTok c (rowGet cols vals c ""))) := by
      apply String.ext
      show replaceChars (flattenSegs segs).data (placeholder c).data
          (rowGet cols vals c "").data = _
      exact replaceChars_flatten c (rowGet cols vals c "") segs hs
        (hp c (by simp)) (hv c (by simp))
    rw [show renderPure cols vals (c :: rest) (flattenSegs segs)
        = renderPure cols vals rest
            (pyReplace (flattenSegs segs) (placeholder c) (rowGet cols vals c ""))
        from rfl]
    rw [hstep]
    rw [ih (segs.map (substTok c (rowGet cols vals c "")))
          (fun seg hseg => by
            obtain ⟨s0, hs0, rfl⟩ := List.mem_map.mp hseg
            exact braceFreeSeg_substTok c (rowGet cols vals c "") (hv c (by simp))
              s0 (hs s0 hs0))
          (fun x hx => hp x (by simp [hx]))
          (fun x hx => hv x (by simp [hx]))]
    rw [List.map_map]
    exact congrArg flattenSegs (List.map_congr_left
      (fun seg _ => substTok_substCols cols vals c rest seg))

end EmailSender

namespace Claims

open EmailSender

/-- Claim C7: for a row of a recipient table (columns aligned with the
row's values) and a template decomposed into brace-free literal runs and
`{name}` tokens, with brace-free column names and row values, the bulk
rendering replaces, for each column present in the table, every
occurrence of the token `{columnName}` with the row's value for that
column, and leaves every token of an absent column verbatim in the
output (not an error). -/
theorem C7_template_substitution (cols vals : List String)
    (segs : List TemplateSeg)
    (halign : vals.length = cols.length)
    (hsegs : ∀ seg ∈ segs, braceFreeSeg seg = true)
    (hcols : ∀ c ∈ cols, braceFreeB c.data = true)
    (hvals : ∀ c ∈ cols, braceFreeB (rowGet cols vals c "").data = true) :
    renderTemplateE cols vals (flattenSegs segs)
      = .ok (flattenSegs (segs.map (substCols cols vals cols))) := by
  rw [renderTemplateE_ok cols vals _ halign]
  rw [renderPure_flatten cols vals cols segs hsegs hcols hvals]

/-- Witness for C7: a template with one present-column token and one
absent-column token, rendered for a concrete row. -/
theorem C7_template_substitution_witness :
    renderTemplateE ["email", "name"] ["a@x.com", "Ava"]
        (flattenSegs [.lit "Hello ", .tok "name", .lit ", from ", .tok "company"])
      = .ok (flattenSegs
          ([TemplateSeg.lit "Hello ", .tok "name", .lit ", from ", .tok "company"].map
            (substCols ["email", "name"] ["a@x.com", "Ava"] ["email", "name"]))) :=
  C7_template_substitution ["email", "name"] ["a@x.com", "Ava"]
    [.lit "Hello ", .tok "name", .lit ", from ", .tok "company"]
    (by decide) (by decide) (by decide) (by decide)

end Claims

end EmailAuto
